import Mathlib

/-!
# Verification of the opencode-acp-chat agent bridge (`src/acp/AcpClient.ts`)

Shallow embedding of the `AcpClient` class: connection state machine,
session-metadata patching, permission mediation, file reads, and the
terminal registry.  JavaScript strings are modelled as lists of Unicode
code points (`List Nat`); `Buffer.byteLength`/`Buffer.from` with the
`utf8` encoding correspond to `utf8Encode`, and `buf.toString("utf8")`
to `utf8Decode` (the WHATWG decoder Node uses, which turns every maximal
invalid byte subsequence into one U+FFFD replacement character).
Fallible handlers return `Except String`.
-/

/-! ## UTF-8 encoding and decoding -/

/-- UTF-8 encoding of one Unicode code point. -/
def utf8EncodeChar (cp : Nat) : List Nat :=
  if cp < 0x80 then [cp]
  else if cp < 0x800 then [0xC0 + cp / 0x40, 0x80 + cp % 0x40]
  else if cp < 0x10000 then
    [0xE0 + cp / 0x1000, 0x80 + (cp / 0x40) % 0x40, 0x80 + cp % 0x40]
  else
    [0xF0 + cp / 0x40000, 0x80 + (cp / 0x1000) % 0x40, 0x80 + (cp / 0x40) % 0x40,
     0x80 + cp % 0x40]

/-- `Buffer.from(s, "utf8")`: the UTF-8 bytes of a string. -/
def utf8Encode (s : List Nat) : List Nat :=
  s.flatMap utf8EncodeChar

/-- `buf.toString("utf8")`: WHATWG UTF-8 decoding with replacement, as Node
performs it — well-formed sequences decode to their code point (overlong
forms, surrogates and values above U+10FFFF are excluded by the
continuation-byte bounds), and each maximal invalid subsequence yields one
U+FFFD (`0xFFFD`). -/
def utf8Decode : List Nat → List Nat
  | [] => []
  | b :: rest =>
    if b < 0x80 then b :: utf8Decode rest
    else if b < 0xC2 then 0xFFFD :: utf8Decode rest
    else if b < 0xE0 then
      match rest with
      | [] => [0xFFFD]
      | c :: rest2 =>
        if 0x80 ≤ c ∧ c < 0xC0 then
          ((b - 0xC0) * 0x40 + (c - 0x80)) :: utf8Decode rest2
        else 0xFFFD :: utf8Decode (c :: rest2)
    else if b < 0xF0 then
      match rest with
      | [] => [0xFFFD]
      | c :: rest2 =>
        if (if b = 0xE0 then 0xA0 else 0x80) ≤ c ∧ c < (if b = 0xED then 0xA0 else 0xC0) then
          match rest2 with
          | [] => [0xFFFD]
          | d :: rest3 =>
            if 0x80 ≤ d ∧ d < 0xC0 then
              ((b - 0xE0) * 0x1000 + (c - 0x80) * 0x40 + (d - 0x80)) :: utf8Decode rest3
            else 0xFFFD :: utf8Decode (d :: rest3)
        else 0xFFFD :: utf8Decode (c :: rest2)
    else if b < 0xF5 then
      match rest with
      | [] => [0xFFFD]
      | c :: rest2 =>
        if (if b = 0xF0 then 0x90 else 0x80) ≤ c ∧ c < (if b = 0xF4 then 0x90 else 0xC0) then
          match rest2 with
          | [] => [0xFFFD]
          | d :: rest3 =>
            if 0x80 ≤ d ∧ d < 0xC0 then
              match rest3 with
              | [] => [0xFFFD]
              | e :: rest4 =>
                if 0x80 ≤ e ∧ e < 0xC0 then
                  ((b - 0xF0) * 0x40000 + (c - 0x80) * 0x1000 + (d - 0x80) * 0x40 +
                    (e - 0x80)) :: utf8Decode rest4
                else 0xFFFD :: utf8Decode (e :: rest4)
            else 0xFFFD :: utf8Decode (d :: rest3)
        else 0xFFFD :: utf8Decode (c :: rest2)
    else 0xFFFD :: utf8Decode rest

theorem utf8Encode_nil : utf8Encode [] = [] := rfl

theorem utf8Encode_cons (cp : Nat) (s : List Nat) :
    utf8Encode (cp :: s) = utf8EncodeChar cp ++ utf8Encode s := rfl

theorem utf8Encode_append (a b : List Nat) :
    utf8Encode (a ++ b) = utf8Encode a ++ utf8Encode b := by
  simp [utf8Encode]

theorem utf8EncodeChar_length_le (cp : Nat) : (utf8EncodeChar cp).length ≤ 4 := by
  unfold utf8EncodeChar
  split
  · simp
  · split
    · simp
    · split <;> simp

theorem utf8EncodeChar_replacement_length : (utf8EncodeChar 0xFFFD).length = 3 := by decide

theorem utf8EncodeChar_ascii_length (cp : Nat) (h : cp < 0x80) :
    (utf8EncodeChar cp).length = 1 := by
  unfold utf8EncodeChar
  rw [if_pos h]
  rfl

theorem utf8Decode_nil : utf8Decode [] = [] := rfl

theorem utf8Decode_ascii (b : Nat) (rest : List Nat) (h : b < 0x80) :
    utf8Decode (b :: rest) = b :: utf8Decode rest := by
  conv_lhs => rw [utf8Decode.eq_def]
  dsimp only
  rw [if_pos h]

theorem utf8Decode_badlead (b : Nat) (rest : List Nat) (h1 : ¬b < 0x80) (h2 : b < 0xC2) :
    utf8Decode (b :: rest) = 0xFFFD :: utf8Decode rest := by
  conv_lhs => rw [utf8Decode.eq_def]
  dsimp only
  rw [if_neg h1, if_pos h2]

theorem utf8Decode_two_eoi (b : Nat) (h1 : ¬b < 0xC2) (h2 : b < 0xE0) :
    utf8Decode [b] = [0xFFFD] := by
  conv_lhs => rw [utf8Decode.eq_def]
  dsimp only
  rw [if_neg (by omega : ¬b < 0x80), if_neg h1, if_pos h2]

theorem utf8Decode_two_ok (b c : Nat) (rest : List Nat)
    (h1 : ¬b < 0xC2) (h2 : b < 0xE0) (h3 : 0x80 ≤ c ∧ c < 0xC0) :
    utf8Decode (b :: c :: rest) = ((b - 0xC0) * 0x40 + (c - 0x80)) :: utf8Decode rest := by
  conv_lhs => rw [utf8Decode.eq_def]
  dsimp only
  rw [if_neg (by omega : ¬b < 0x80), if_neg h1, if_pos h2, if_pos h3]

theorem utf8Decode_two_bad (b c : Nat) (rest : List Nat)
    (h1 : ¬b < 0xC2) (h2 : b < 0xE0) (h3 : ¬(0x80 ≤ c ∧ c < 0xC0)) :
    utf8Decode (b :: c :: rest) = 0xFFFD :: utf8Decode (c :: rest) := by
  conv_lhs => rw [utf8Decode.eq_def]
  dsimp only
  rw [if_neg (by omega : ¬b < 0x80), if_neg h1, if_pos h2, if_neg h3]

theorem utf8Decode_three_eoi1 (b : Nat) (h1 : ¬b < 0xE0) (h2 : b < 0xF0) :
    utf8Decode [b] = [0xFFFD] := by
  conv_lhs => rw [utf8Decode.eq_def]
  dsimp only
  rw [if_neg (by omega : ¬b < 0x80), if_neg (by omega : ¬b < 0xC2), if_neg h1, if_pos h2]

theorem utf8Decode_three_eoi2 (b c : Nat) (h1 : ¬b < 0xE0) (h2 : b < 0xF0)
    (h3 : (if b = 0xE0 then 0xA0 else 0x80) ≤ c ∧ c < (if b = 0xED then 0xA0 else 0xC0)) :
    utf8Decode [b, c] = [0xFFFD] := by
  conv_lhs => rw [utf8Decode.eq_def]
  dsimp only
  rw [if_neg (by omega : ¬b < 0x80), if_neg (by omega : ¬b < 0xC2), if_neg h1, if_pos h2,
    if_pos h3]

theorem utf8Decode_three_ok (b c d : Nat) (rest : List Nat)
    (h1 : ¬b < 0xE0) (h2 : b < 0xF0)
    (h3 : (if b = 0xE0 then 0xA0 else 0x80) ≤ c ∧ c < (if b = 0xED then 0xA0 else 0xC0))
    (h4 : 0x80 ≤ d ∧ d < 0xC0) :
    utf8Decode (b :: c :: d :: rest)
      = ((b - 0xE0) * 0x1000 + (c - 0x80) * 0x40 + (d - 0x80)) :: utf8Decode rest := by
  conv_lhs => rw [utf8Decode.eq_def]
  dsimp only
  rw [if_neg (by omega : ¬b < 0x80), if_neg (by omega : ¬b < 0xC2), if_neg h1, if_pos h2,
    if_pos h3, if_pos h4]

theorem utf8Decode_three_bad_d (b c d : Nat) (rest : List Nat)
    (h1 : ¬b < 0xE0) (h2 : b < 0xF0)
    (h3 : (if b = 0xE0 then 0xA0 else 0x80) ≤ c ∧ c < (if b = 0xED then 0xA0 else 0xC0))
    (h4 : ¬(0x80 ≤ d ∧ d < 0xC0)) :
    utf8Decode (b :: c :: d :: rest) = 0xFFFD :: utf8Decode (d :: rest) := by
  conv_lhs => rw [utf8Decode.eq_def]
  dsimp only
  rw [if_neg (by omega : ¬b < 0x80), if_neg (by omega : ¬b < 0xC2), if_neg h1, if_pos h2,
    if_pos h3, if_neg h4]

theorem utf8Decode_three_bad_c (b c : Nat) (rest : List Nat)
    (h1 : ¬b < 0xE0) (h2 : b < 0xF0)
    (h3 : ¬((if b = 0xE0 then 0xA0 else 0x80) ≤ c ∧ c < (if b = 0xED then 0xA0 else 0xC0))) :
    utf8Decode (b :: c :: rest) = 0xFFFD :: utf8Decode (c :: rest) := by
  conv_lhs => rw [utf8Decode.eq_def]
  dsimp only
  rw [if_neg (by omega : ¬b < 0x80), if_neg (by omega : ¬b < 0xC2), if_neg h1, if_pos h2,
    if_neg h3]

theorem utf8Decode_four_eoi1 (b : Nat) (h1 : ¬b < 0xF0) (h2 : b < 0xF5) :
    utf8Decode [b] = [0xFFFD] := by
  conv_lhs => rw [utf8Decode.eq_def]
  dsimp only
  rw [if_neg (by omega : ¬b < 0x80), if_neg (by omega : ¬b < 0xC2),
    if_neg (by omega : ¬b < 0xE0), if_neg h1, if_pos h2]

theorem utf8Decode_four_eoi2 (b c : Nat) (h1 : ¬b < 0xF0) (h2 : b < 0xF5)
    (h3 : (if b = 0xF0 then 0x90 else 0x80) ≤ c ∧ c < (if b = 0xF4 then 0x90 else 0xC0)) :
    utf8Decode [b, c] = [0xFFFD] := by
  conv_lhs => rw [utf8Decode.eq_def]
  dsimp only
  rw [if_neg (by omega : ¬b < 0x80), if_neg (by omega : ¬b < 0xC2),
    if_neg (by omega : ¬b < 0xE0), if_neg h1, if_pos h2, if_pos h3]

theorem utf8Decode_four_eoi3 (b c d : Nat) (h1 : ¬b < 0xF0) (h2 : b < 0xF5)
    (h3 : (if b = 0xF0 then 0x90 else 0x80) ≤ c ∧ c < (if b = 0xF4 then 0x90 else 0xC0))
    (h4 : 0x80 ≤ d ∧ d < 0xC0) :
    utf8Decode [b, c, d] = [0xFFFD] := by
  conv_lhs => rw [utf8Decode.eq_def]
  dsimp only
  rw [if_neg (by omega : ¬b < 0x80), if_neg (by omega : ¬b < 0xC2),
    if_neg (by omega : ¬b < 0xE0), if_neg h1, if_pos h2, if_pos h3, if_pos h4]

theorem utf8Decode_four_ok (b c d e : Nat) (rest : List Nat)
    (h1 : ¬b < 0xF0) (h2 : b < 0xF5)
    (h3 : (if b = 0xF0 then 0x90 else 0x80) ≤ c ∧ c < (if b = 0xF4 then 0x90 else 0xC0))
    (h4 : 0x80 ≤ d ∧ d < 0xC0) (h5 : 0x80 ≤ e ∧ e < 0xC0) :
    utf8Decode (b :: c :: d :: e :: rest)
      = ((b - 0xF0) * 0x40000 + (c - 0x80) * 0x1000 + (d - 0x80) * 0x40 + (e - 0x80))
          :: utf8Decode rest := by
  conv_lhs => rw [utf8Decode.eq_def]
  dsimp only
  rw [if_neg (by omega : ¬b < 0x80), if_neg (by omega : ¬b < 0xC2),
    if_neg (by omega : ¬b < 0xE0), if_neg h1, if_pos h2, if_pos h3, if_pos h4, if_pos h5]

theorem utf8Decode_four_bad_e (b c d e : Nat) (rest : List Nat)
    (h1 : ¬b < 0xF0) (h2 : b < 0xF5)
    (h3 : (if b = 0xF0 then 0x90 else 0x80) ≤ c ∧ c < (if b = 0xF4 then 0x90 else 0xC0))
    (h4 : 0x80 ≤ d ∧ d < 0xC0) (h5 : ¬(0x80 ≤ e ∧ e < 0xC0)) :
    utf8Decode (b :: c :: d :: e :: rest) = 0xFFFD :: utf8Decode (e :: rest) := by
  conv_lhs => rw [utf8Decode.eq_def]
  dsimp only
  rw [if_neg (by omega : ¬b < 0x80), if_neg (by omega : ¬b < 0xC2),
    if_neg (by omega : ¬b < 0xE0), if_neg h1, if_pos h2, if_pos h3, if_pos h4, if_neg h5]

theorem utf8Decode_four_bad_d (b c d : Nat) (rest : List Nat)
    (h1 : ¬b < 0xF0) (h2 : b < 0xF5)
    (h3 : (if b = 0xF0 then 0x90 else 0x80) ≤ c ∧ c < (if b = 0xF4 then 0x90 else 0xC0))
    (h4 : ¬(0x80 ≤ d ∧ d < 0xC0)) :
    utf8Decode (b :: c :: d :: rest) = 0xFFFD :: utf8Decode (d :: rest) := by
  conv_lhs => rw [utf8Decode.eq_def]
  dsimp only
  rw [if_neg (by omega : ¬b < 0x80), if_neg (by omega : ¬b < 0xC2),
    if_neg (by omega : ¬b < 0xE0), if_neg h1, if_pos h2, if_pos h3, if_neg h4]

theorem utf8Decode_four_bad_c (b c : Nat) (rest : List Nat)
    (h1 : ¬b < 0xF0) (h2 : b < 0xF5)
    (h3 : ¬((if b = 0xF0 then 0x90 else 0x80) ≤ c ∧ c < (if b = 0xF4 then 0x90 else 0xC0))) :
    utf8Decode (b :: c :: rest) = 0xFFFD :: utf8Decode (c :: rest) := by
  conv_lhs => rw [utf8Decode.eq_def]
  dsimp only
  rw [if_neg (by omega : ¬b < 0x80), if_neg (by omega : ¬b < 0xC2),
    if_neg (by omega : ¬b < 0xE0), if_neg h1, if_pos h2, if_neg h3]

theorem utf8Decode_invalid_high (b : Nat) (rest : List Nat) (h : ¬b < 0xF5) :
    utf8Decode (b :: rest) = 0xFFFD :: utf8Decode rest := by
  conv_lhs => rw [utf8Decode.eq_def]
  dsimp only
  rw [if_neg (by omega : ¬b < 0x80), if_neg (by omega : ¬b < 0xC2),
    if_neg (by omega : ¬b < 0xE0), if_neg (by omega : ¬b < 0xF0), if_neg h]

/-- Re-encoding a replacement-decoded byte string costs at most a factor 3:
every decoding step consumes at least one byte and emits either the exact
code point of a well-formed sequence (re-encoding to the bytes consumed) or
one 3-byte U+FFFD per consumed invalid byte group. -/
theorem utf8Encode_decode_le (b : List Nat) :
    (utf8Encode (utf8Decode b)).length ≤ 3 * b.length := by
  induction b using utf8Decode.induct
  next => rfl
  next b rest h ih =>
    rw [utf8Decode_ascii b rest h, utf8Encode_cons]
    simp only [List.length_append, List.length_cons]
    have := utf8EncodeChar_ascii_length b h
    omega
  next b rest h1 h2 ih =>
    rw [utf8Decode_badlead b rest h1 h2, utf8Encode_cons]
    simp only [List.length_append, List.length_cons]
    have := utf8EncodeChar_replacement_length
    omega
  next b h1 h2 h3 =>
    rw [utf8Decode_two_eoi b h2 h3]
    have := utf8EncodeChar_replacement_length
    simp only [utf8Encode_cons, utf8Encode_nil, List.length_append, List.length_cons,
      List.length_nil]
    omega
  next b h1 h2 h3 c rest h4 ih =>
    rw [utf8Decode_two_ok b c rest h2 h3 h4, utf8Encode_cons]
    simp only [List.length_append, List.length_cons]
    have := utf8EncodeChar_length_le ((b - 0xC0) * 0x40 + (c - 0x80))
    omega
  next b h1 h2 h3 c rest h4 ih =>
    rw [utf8Decode_two_bad b c rest h2 h3 h4, utf8Encode_cons]
    simp only [List.length_append, List.length_cons] at ih ⊢
    have := utf8EncodeChar_replacement_length
    omega
  next b h1 h2 h3 h4 =>
    rw [utf8Decode_three_eoi1 b h3 h4]
    have := utf8EncodeChar_replacement_length
    simp only [utf8Encode_cons, utf8Encode_nil, List.length_append, List.length_cons,
      List.length_nil]
    omega
  next b h1 h2 h3 h4 c h5 =>
    rw [utf8Decode_three_eoi2 b c h3 h4 h5]
    have := utf8EncodeChar_replacement_length
    simp only [utf8Encode_cons, utf8Encode_nil, List.length_append, List.length_cons,
      List.length_nil]
    omega
  next b h1 h2 h3 h4 c h5 d rest h6 ih =>
    rw [utf8Decode_three_ok b c d rest h3 h4 h5 h6, utf8Encode_cons]
    simp only [List.length_append, List.length_cons]
    have := utf8EncodeChar_length_le ((b - 0xE0) * 0x1000 + (c - 0x80) * 0x40 + (d - 0x80))
    omega
  next b h1 h2 h3 h4 c h5 d rest h6 ih =>
    rw [utf8Decode_three_bad_d b c d rest h3 h4 h5 h6, utf8Encode_cons]
    simp only [List.length_append, List.length_cons] at ih ⊢
    have := utf8EncodeChar_replacement_length
    omega
  next b h1 h2 h3 h4 c rest h5 ih =>
    rw [utf8Decode_three_bad_c b c rest h3 h4 h5, utf8Encode_cons]
    simp only [List.length_append, List.length_cons] at ih ⊢
    have := utf8EncodeChar_replacement_length
    omega
  next b h1 h2 h3 h4 h5 =>
    rw [utf8Decode_four_eoi1 b h4 h5]
    have := utf8EncodeChar_replacement_length
    simp only [utf8Encode_cons, utf8Encode_nil, List.length_append, List.length_cons,
      List.length_nil]
    omega
  next b h1 h2 h3 h4 h5 c h6 =>
    rw [utf8Decode_four_eoi2 b c h4 h5 h6]
    have := utf8EncodeChar_replacement_length
    simp only [utf8Encode_cons, utf8Encode_nil, List.length_append, List.length_cons,
      List.length_nil]
    omega
  next b h1 h2 h3 h4 h5 c h6 d h7 =>
    rw [utf8Decode_four_eoi3 b c d h4 h5 h6 h7]
    have := utf8EncodeChar_replacement_length
    simp only [utf8Encode_cons, utf8Encode_nil, List.length_append, List.length_cons,
      List.length_nil]
    omega
  next b h1 h2 h3 h4 h5 c h6 d h7 e rest h8 ih =>
    rw [utf8Decode_four_ok b c d e rest h4 h5 h6 h7 h8, utf8Encode_cons]
    simp only [List.length_append, List.length_cons]
    have := utf8EncodeChar_length_le
      ((b - 0xF0) * 0x40000 + (c - 0x80) * 0x1000 + (d - 0x80) * 0x40 + (e - 0x80))
    omega
  next b h1 h2 h3 h4 h5 c h6 d h7 e rest h8 ih =>
    rw [utf8Decode_four_bad_e b c d e rest h4 h5 h6 h7 h8, utf8Encode_cons]
    simp only [List.length_append, List.length_cons] at ih ⊢
    have := utf8EncodeChar_replacement_length
    omega
  next b h1 h2 h3 h4 h5 c h6 d rest h7 ih =>
    rw [utf8Decode_four_bad_d b c d rest h4 h5 h6 h7, utf8Encode_cons]
    simp only [List.length_append, List.length_cons] at ih ⊢
    have := utf8EncodeChar_replacement_length
    omega
  next b h1 h2 h3 h4 h5 c rest h6 ih =>
    rw [utf8Decode_four_bad_c b c rest h4 h5 h6, utf8Encode_cons]
    simp only [List.length_append, List.length_cons] at ih ⊢
    have := utf8EncodeChar_replacement_length
    omega
  next b rest h1 h2 h3 h4 h5 ih =>
    rw [utf8Decode_invalid_high b rest h5, utf8Encode_cons]
    simp only [List.length_append, List.length_cons]
    have := utf8EncodeChar_replacement_length
    omega

/-- Connection state, `type ConnectionState = "disconnected" | "connecting" | "connected"`. -/
inductive ConnectionState where
  | disconnected
  | connecting
  | connected
deriving DecidableEq, Repr

/-- One managed terminal, mirroring the `ManagedTerminal` interface:
`output` is the stored JS string `terminal.output` as its list of Unicode
code points, `outputByteLimit` the optional cap on its UTF-8 byte length,
`truncated` the sticky flag, `exitCode`/`signal` the exit snapshot,
`killed` the `proc.killed` flag and `exitResolved` whether `resolveExit()`
has been called (i.e. `exitPromise` is settled). -/
structure ManagedTerminal where
  output : List Nat
  outputByteLimit : Option Nat
  truncated : Bool
  exitCode : Option Int
  signal : Option String
  killed : Bool
  exitResolved : Bool
deriving DecidableEq, Repr

/-- `appendTerminalOutput(terminal, text)`: append `text` to the combined
buffer; when a byte limit is set and `Buffer.byteLength(output, "utf8")`
exceeds it, store `encoded.slice(encoded.length - limit).toString("utf8")`
— the replacement-decoding of the last `limit` encoded bytes — and set
`truncated`. -/
def appendTerminalOutput (t : ManagedTerminal) (text : List Nat) : ManagedTerminal :=
  let out := t.output ++ text
  match t.outputByteLimit with
  | none => { t with output := out }
  | some limit =>
      if (utf8Encode out).length > limit then
        { t with
          output := utf8Decode ((utf8Encode out).drop ((utf8Encode out).length - limit)),
          truncated := true }
      else
        { t with output := out }

/-- A freshly created terminal with byte limit `N`
(`output: "", truncated: false, exitCode: null, signal: null`). -/
def freshTerminal (limit : Option Nat) : ManagedTerminal :=
  { output := [], outputByteLimit := limit, truncated := false,
    exitCode := none, signal := none, killed := false, exitResolved := false }

/-- Run a sequence of stdout/stderr `data` events against one terminal. -/
def runAppends (t : ManagedTerminal) (texts : List (List Nat)) : ManagedTerminal :=
  texts.foldl appendTerminalOutput t

/-- Total number of raw UTF-8 bytes delivered by a sequence of appends. -/
def totalBytes (texts : List (List Nat)) : Nat :=
  (texts.map (fun text => (utf8Encode text).length)).sum

theorem appendTerminalOutput_eq (t : ManagedTerminal) (text : List Nat) :
    appendTerminalOutput t text =
      match t.outputByteLimit with
      | none => { t with output := t.output ++ text }
      | some limit =>
          if (utf8Encode (t.output ++ text)).length > limit then
            { t with
              output := utf8Decode ((utf8Encode (t.output ++ text)).drop
                ((utf8Encode (t.output ++ text)).length - limit)),
              truncated := true }
          else
            { t with output := t.output ++ text } := rfl

theorem appendTerminalOutput_none (t : ManagedTerminal) (text : List Nat)
    (hN : t.outputByteLimit = none) :
    appendTerminalOutput t text = { t with output := t.output ++ text } := by
  rw [appendTerminalOutput_eq, hN]

theorem appendTerminalOutput_of_gt (t : ManagedTerminal) (text : List Nat) (N : Nat)
    (hN : t.outputByteLimit = some N)
    (hc : (utf8Encode (t.output ++ text)).length > N) :
    appendTerminalOutput t text =
      { t with
        output := utf8Decode ((utf8Encode (t.output ++ text)).drop
          ((utf8Encode (t.output ++ text)).length - N)),
        truncated := true } := by
  rw [appendTerminalOutput_eq, hN]
  exact if_pos hc

theorem appendTerminalOutput_of_le (t : ManagedTerminal) (text : List Nat) (N : Nat)
    (hN : t.outputByteLimit = some N)
    (hc : ¬(utf8Encode (t.output ++ text)).length > N) :
    appendTerminalOutput t text = { t with output := t.output ++ text } := by
  rw [appendTerminalOutput_eq, hN]
  exact if_neg hc

theorem appendTerminalOutput_limit (t : ManagedTerminal) (text : List Nat) :
    (appendTerminalOutput t text).outputByteLimit = t.outputByteLimit := by
  rcases hl : t.outputByteLimit with _ | N
  · rw [appendTerminalOutput_none t text hl]
    exact hl
  · by_cases hc : (utf8Encode (t.output ++ text)).length > N
    · rw [appendTerminalOutput_of_gt t text N hl hc]
      exact hl
    · rw [appendTerminalOutput_of_le t text N hl hc]
      exact hl

/-- After an append whose size check fired, the stored string is the
decoding of exactly the last `N` encoded bytes, and its own UTF-8 length
can only exceed `N` through replacement inflation, bounded by `3 * N`. -/
theorem appendTerminalOutput_bytes_le (t : ManagedTerminal) (text : List Nat)
    (N : Nat) (hN : t.outputByteLimit = some N) :
    (utf8Encode (appendTerminalOutput t text).output).length ≤ 3 * N := by
  by_cases hc : (utf8Encode (t.output ++ text)).length > N
  · rw [appendTerminalOutput_of_gt t text N hN hc]
    show (utf8Encode (utf8Decode ((utf8Encode (t.output ++ text)).drop
      ((utf8Encode (t.output ++ text)).length - N)))).length ≤ 3 * N
    have h1 := utf8Encode_decode_le ((utf8Encode (t.output ++ text)).drop
      ((utf8Encode (t.output ++ text)).length - N))
    simp only [List.length_drop] at h1
    omega
  · rw [appendTerminalOutput_of_le t text N hN hc]
    show (utf8Encode (t.output ++ text)).length ≤ 3 * N
    omega

/-- An append that leaves `truncated` false did not fire the size check, so
the stored byte length is at most the limit. -/
theorem appendTerminalOutput_bytes_of_not_truncated (t : ManagedTerminal)
    (text : List Nat) (N : Nat) (hN : t.outputByteLimit = some N)
    (h : (appendTerminalOutput t text).truncated = false) :
    (utf8Encode (appendTerminalOutput t text).output).length ≤ N := by
  by_cases hc : (utf8Encode (t.output ++ text)).length > N
  · rw [appendTerminalOutput_of_gt t text N hN hc] at h
    exact Bool.noConfusion h
  · rw [appendTerminalOutput_of_le t text N hN hc]
    exact Nat.le_of_not_lt hc

theorem runAppends_limit (texts : List (List Nat)) (t : ManagedTerminal) :
    (runAppends t texts).outputByteLimit = t.outputByteLimit := by
  induction texts generalizing t with
  | nil => rfl
  | cons x xs ih =>
      simp only [runAppends, List.foldl_cons] at *
      rw [ih, appendTerminalOutput_limit]

theorem runAppends_bytes_of_not_truncated (texts : List (List Nat))
    (t : ManagedTerminal) (N : Nat) (hN : t.outputByteLimit = some N)
    (hstart : t.truncated = false → (utf8Encode t.output).length ≤ N)
    (hf : (runAppends t texts).truncated = false) :
    (utf8Encode (runAppends t texts).output).length ≤ N := by
  induction texts generalizing t with
  | nil => exact hstart hf
  | cons x xs ih =>
      simp only [runAppends, List.foldl_cons] at *
      exact ih (appendTerminalOutput t x) (by rw [appendTerminalOutput_limit, hN])
        (fun h => appendTerminalOutput_bytes_of_not_truncated t x N hN h) hf

theorem runAppends_bytes_le (texts : List (List Nat)) (t : ManagedTerminal)
    (N : Nat) (hN : t.outputByteLimit = some N)
    (hstart : (utf8Encode t.output).length ≤ 3 * N) :
    (utf8Encode (runAppends t texts).output).length ≤ 3 * N := by
  induction texts generalizing t with
  | nil => exact hstart
  | cons x xs ih =>
      simp only [runAppends, List.foldl_cons] at *
      exact ih (appendTerminalOutput t x) (by rw [appendTerminalOutput_limit, hN])
        (appendTerminalOutput_bytes_le t x N hN)

theorem appendTerminalOutput_truncated_mono (t : ManagedTerminal) (text : List Nat)
    (h : t.truncated = true) : (appendTerminalOutput t text).truncated = true := by
  rcases hl : t.outputByteLimit with _ | N
  · rw [appendTerminalOutput_none t text hl]
    exact h
  · by_cases hc : (utf8Encode (t.output ++ text)).length > N
    · rw [appendTerminalOutput_of_gt t text N hl hc]
    · rw [appendTerminalOutput_of_le t text N hl hc]
      exact h

theorem runAppends_truncated_mono (texts : List (List Nat)) (t : ManagedTerminal)
    (h : t.truncated = true) : (runAppends t texts).truncated = true := by
  induction texts generalizing t with
  | nil => exact h
  | cons x xs ih =>
      simp only [runAppends, List.foldl_cons] at *
      exact ih _ (appendTerminalOutput_truncated_mono t x h)

/-- While no truncation has fired, the buffer holds every raw byte delivered. -/
theorem runAppends_not_truncated (texts : List (List Nat)) (t : ManagedTerminal)
    (N : Nat) (hN : t.outputByteLimit = some N)
    (hf : (runAppends t texts).truncated = false) :
    t.truncated = false ∧
      (utf8Encode (runAppends t texts).output).length
        = (utf8Encode t.output).length + totalBytes texts := by
  induction texts generalizing t with
  | nil => exact ⟨hf, by simp [runAppends, totalBytes]⟩
  | cons x xs ih =>
      simp only [runAppends, List.foldl_cons] at hf ⊢
      have hlim : (appendTerminalOutput t x).outputByteLimit = some N := by
        rw [appendTerminalOutput_limit, hN]
      obtain ⟨h1, h2⟩ := ih (appendTerminalOutput t x) hlim hf
      simp only [runAppends] at h2
      by_cases hc : (utf8Encode (t.output ++ x)).length > N
      · exfalso
        rw [appendTerminalOutput_of_gt t x N hN hc] at h1
        exact Bool.noConfusion h1
      · rw [appendTerminalOutput_of_le t x N hN hc] at h1 h2
        refine ⟨h1, ?_⟩
        rw [appendTerminalOutput_of_le t x N hN hc, h2]
        show (utf8Encode (t.output ++ x)).length + totalBytes xs
          = (utf8Encode t.output).length + totalBytes (x :: xs)
        rw [utf8Encode_append]
        simp only [totalBytes, List.map_cons, List.sum_cons, List.length_append]
        omega

/-- C2 fails on the code: the truncation
`encoded.slice(encoded.length - limit).toString("utf8")` can cut through a
multi-byte character, whose orphaned continuation bytes decode to U+FFFD
replacement characters.  With `outputByteLimit = 2`, appending `"€"`
(code point `0x20AC`, three bytes `E2 82 AC`) keeps the two bytes `82 AC`,
which decode to two replacement characters re-encoding to 6 bytes — the
stored buffer's byte length exceeds the limit after the append. -/
theorem truncation_split_char_exceeds_limit :
    (appendTerminalOutput (freshTerminal (some 2)) [0x20AC]).output
      = [0xFFFD, 0xFFFD] ∧
    (utf8Encode (appendTerminalOutput (freshTerminal (some 2)) [0x20AC]).output).length
      = 6 ∧
    ¬(utf8Encode (appendTerminalOutput (freshTerminal (some 2)) [0x20AC]).output).length
      ≤ 2 := by
  refine ⟨by decide, by decide, by decide⟩

/-- C2 amended: for a terminal created with `outputByteLimit = N`, after
every append the stored buffer's byte length is at most `N` as long as the
terminal is not truncated (and in general at most `3 * N`: the size check
keeps exactly the last `N` encoded bytes and only U+FFFD replacement
inflation at the cut can push the re-encoded length above `N`); once the
cumulative raw output exceeds `N` the terminal is truncated, and
`truncated` never resets to false for the rest of the terminal's
lifetime. -/
theorem terminal_truncated_sticky_and_byte_bounds (N : Nat) (texts : List (List Nat)) :
    (∀ pre suf, texts = pre ++ suf →
        (runAppends (freshTerminal (some N)) pre).truncated = false →
        (utf8Encode (runAppends (freshTerminal (some N)) pre).output).length ≤ N) ∧
    (∀ pre suf, texts = pre ++ suf →
        (utf8Encode (runAppends (freshTerminal (some N)) pre).output).length ≤ 3 * N) ∧
    (totalBytes texts > N →
        (runAppends (freshTerminal (some N)) texts).truncated = true) ∧
    (∀ (t : ManagedTerminal) (more : List (List Nat)), t.truncated = true →
        (runAppends t more).truncated = true) := by
  refine ⟨?_, ?_, ?_, fun t more h => runAppends_truncated_mono more t h⟩
  · intro pre _ _ hf
    exact runAppends_bytes_of_not_truncated pre (freshTerminal (some N)) N rfl
      (fun _ => Nat.zero_le N) hf
  · intro pre _ _
    exact runAppends_bytes_le pre (freshTerminal (some N)) N rfl (Nat.zero_le (3 * N))
  · intro hgt
    by_contra hne
    have hfalse : (runAppends (freshTerminal (some N)) texts).truncated = false := by
      cases hb : (runAppends (freshTerminal (some N)) texts).truncated
      · rfl
      · exact absurd hb hne
    obtain ⟨-, hlen⟩ := runAppends_not_truncated texts (freshTerminal (some N)) N rfl hfalse
    have hle : (utf8Encode (runAppends (freshTerminal (some N)) texts).output).length ≤ N :=
      runAppends_bytes_of_not_truncated texts (freshTerminal (some N)) N rfl
        (fun _ => Nat.zero_le N) hfalse
    rw [hlen] at hle
    simp only [freshTerminal, utf8Encode_nil, List.length_nil, Nat.zero_add] at hle
    omega

/-- Witness for the amended C2: limit 4, two 3-byte ASCII appends. -/
theorem terminal_truncated_sticky_and_byte_bounds_witness :
    (utf8Encode (runAppends (freshTerminal (some 4)) [[65, 66, 67]]).output).length ≤ 4 ∧
    (utf8Encode
        (runAppends (freshTerminal (some 4)) [[65, 66, 67], [68, 69, 70]]).output).length
      ≤ 3 * 4 ∧
    (runAppends (freshTerminal (some 4)) [[65, 66, 67], [68, 69, 70]]).truncated = true ∧
    (runAppends (runAppends (freshTerminal (some 4)) [[65, 66, 67], [68, 69, 70]])
        [[71]]).truncated = true := by
  have h := terminal_truncated_sticky_and_byte_bounds 4 [[65, 66, 67], [68, 69, 70]]
  refine ⟨h.1 [[65, 66, 67]] [[68, 69, 70]] rfl (by decide),
          h.2.1 [[65, 66, 67], [68, 69, 70]] [] (by simp), h.2.2.1 (by decide), ?_⟩
  exact (terminal_truncated_sticky_and_byte_bounds 4 [[71]]).2.2.2
    (runAppends (freshTerminal (some 4)) [[65, 66, 67], [68, 69, 70]]) [[71]]
    (h.2.2.1 (by decide))

/-! ## Terminal registry: `this.terminals` and the four terminal handlers -/

/-- `this.terminals.get(id)` over the registry modelled as an association list. -/
def findTerminal : List (String × ManagedTerminal) → String → Option ManagedTerminal
  | [], _ => none
  | (k, t) :: rest, tid => if k = tid then some t else findTerminal rest tid

/-- In-place mutation of one registered terminal through its map entry. -/
def updateTerminal : List (String × ManagedTerminal) → String →
    (ManagedTerminal → ManagedTerminal) → List (String × ManagedTerminal)
  | [], _, _ => []
  | (k, t) :: rest, tid, f =>
      if k = tid then (k, f t) :: updateTerminal rest tid f
      else (k, t) :: updateTerminal rest tid f

/-- `proc.kill()` guarded by `if (!terminal.proc.killed)`. -/
def killProc (t : ManagedTerminal) : ManagedTerminal :=
  if t.killed then t else { t with killed := true }

/-- Response of `terminalOutput`: the combined buffer, the `truncated` flag
and an exit snapshot (`null` while running, else exit code plus optional
signal). -/
structure TerminalOutputResponse where
  output : List Nat
  truncated : Bool
  exitStatus : Option (Int × Option String)
deriving DecidableEq, Repr

/-- `handleTerminalOutput`: unknown id throws `Unknown terminal`; otherwise a
snapshot of the terminal's buffer and exit state. -/
def handleTerminalOutput (terminals : List (String × ManagedTerminal)) (terminalId : String) :
    Except String TerminalOutputResponse :=
  match findTerminal terminals terminalId with
  | none => .error ("Unknown terminal: " ++ terminalId)
  | some t =>
      .ok { output := t.output, truncated := t.truncated,
            exitStatus :=
              match t.exitCode with
              | none => none
              | some c => some (c, t.signal) }

/-- Result of awaiting `terminal.exitPromise`: still `pending` until
`resolveExit()` runs, then `resolved` with the exit code and signal. -/
inductive WaitOutcome where
  | pending
  | resolved (exitCode : Option Int) (signal : Option String)
deriving DecidableEq, Repr

/-- `handleWaitForTerminalExit`: unknown id throws `Unknown terminal`;
otherwise the handler awaits `exitPromise` and returns
`{exitCode, signal?}` once it settles. -/
def handleWaitForTerminalExit (terminals : List (String × ManagedTerminal))
    (terminalId : String) : Except String WaitOutcome :=
  match findTerminal terminals terminalId with
  | none => .error ("Unknown terminal: " ++ terminalId)
  | some t =>
      .ok (if t.exitResolved then .resolved t.exitCode t.signal else .pending)

/-- `handleKillTerminal`: unknown id returns `{}` leaving everything
unchanged; otherwise kills the process if not already killed. -/
def handleKillTerminal (terminals : List (String × ManagedTerminal)) (terminalId : String) :
    Except String (List (String × ManagedTerminal)) :=
  match findTerminal terminals terminalId with
  | none => .ok terminals
  | some _ => .ok (updateTerminal terminals terminalId killProc)

/-- `handleReleaseTerminal`: unknown id returns `{}` leaving everything
unchanged; otherwise kills the process if needed and deletes the entry. -/
def handleReleaseTerminal (terminals : List (String × ManagedTerminal)) (terminalId : String) :
    Except String (List (String × ManagedTerminal)) :=
  match findTerminal terminals terminalId with
  | none => .ok terminals
  | some _ =>
      .ok ((updateTerminal terminals terminalId killProc).filter (fun p => p.1 != terminalId))

/-- C3: on an id absent from the registry, `killTerminal` and
`releaseTerminal` succeed as no-ops leaving the registry unchanged, while
`terminalOutput` and `waitForTerminalExit` fail with the not-found error. -/
theorem unknown_terminal_id_asymmetry (terminals : List (String × ManagedTerminal))
    (tid : String) (h : findTerminal terminals tid = none) :
    handleKillTerminal terminals tid = .ok terminals ∧
    handleReleaseTerminal terminals tid = .ok terminals ∧
    handleTerminalOutput terminals tid = .error ("Unknown terminal: " ++ tid) ∧
    handleWaitForTerminalExit terminals tid = .error ("Unknown terminal: " ++ tid) := by
  refine ⟨?_, ?_, ?_, ?_⟩ <;>
    simp [handleKillTerminal, handleReleaseTerminal, handleTerminalOutput,
      handleWaitForTerminalExit, h]

/-- Witness for C3: the empty registry does not contain `"terminal-1"`. -/
theorem unknown_terminal_id_asymmetry_witness :
    handleKillTerminal [] "terminal-1" = .ok [] ∧
    handleReleaseTerminal [] "terminal-1" = .ok [] ∧
    handleTerminalOutput [] "terminal-1" = .error ("Unknown terminal: " ++ "terminal-1") ∧
    handleWaitForTerminalExit [] "terminal-1" = .error ("Unknown terminal: " ++ "terminal-1") :=
  unknown_terminal_id_asymmetry [] "terminal-1" rfl

/-! ## Terminal process `error` events (C10) -/

/-- The `proc.on("error", ...)` listener installed by `handleCreateTerminal`:
appends `"\n" + error.message` to the combined buffer, sets the exit code to
`1` and calls `resolveExit()` so `exitPromise` settles.  `10` is the code
point of the prepended newline. -/
def onProcError (t : ManagedTerminal) (msg : List Nat) : ManagedTerminal :=
  let t1 := appendTerminalOutput t (10 :: msg)
  { t1 with exitCode := some 1, exitResolved := true }

theorem appendTerminalOutput_signal (t : ManagedTerminal) (text : List Nat) :
    (appendTerminalOutput t text).signal = t.signal := by
  rcases hl : t.outputByteLimit with _ | N
  · rw [appendTerminalOutput_none t text hl]
  · by_cases hc : (utf8Encode (t.output ++ text)).length > N
    · rw [appendTerminalOutput_of_gt t text N hl hc]
    · rw [appendTerminalOutput_of_le t text N hl hc]

theorem findTerminal_updateTerminal (terminals : List (String × ManagedTerminal))
    (tid : String) (f : ManagedTerminal → ManagedTerminal) :
    findTerminal (updateTerminal terminals tid f) tid =
      (findTerminal terminals tid).map f := by
  induction terminals with
  | nil => rfl
  | cons p rest ih =>
      obtain ⟨k, t⟩ := p
      by_cases hk : k = tid
      · simp only [updateTerminal, if_pos hk, findTerminal]
        rfl
      · simp only [updateTerminal, if_neg hk, findTerminal]
        exact ih

/-- C10: when a managed terminal's process emits `error`, the error message
is appended (with a newline) to the combined buffer, the exit code becomes
`1`, and the exit promise resolves, so `waitForTerminalExit` on that
terminal returns `{exitCode: 1}` instead of hanging. -/
theorem proc_error_resolves_wait (terminals : List (String × ManagedTerminal))
    (tid : String) (t : ManagedTerminal) (msg : List Nat)
    (h : findTerminal terminals tid = some t) :
    (onProcError t msg).exitCode = some 1 ∧
    (onProcError t msg).exitResolved = true ∧
    (t.outputByteLimit = none → (onProcError t msg).output = t.output ++ 10 :: msg) ∧
    handleWaitForTerminalExit (updateTerminal terminals tid (onProcError · msg)) tid
      = .ok (.resolved (some 1) t.signal) := by
  refine ⟨rfl, rfl, ?_, ?_⟩
  · intro hn
    show (appendTerminalOutput t (10 :: msg)).output = t.output ++ 10 :: msg
    rw [appendTerminalOutput_none t (10 :: msg) hn]
  · have hsig : (onProcError t msg).signal = t.signal := by
      show (appendTerminalOutput t (10 :: msg)).signal = t.signal
      exact appendTerminalOutput_signal t (10 :: msg)
    unfold handleWaitForTerminalExit
    rw [findTerminal_updateTerminal, h]
    simp [show (onProcError t msg).exitResolved = true from rfl,
      show (onProcError t msg).exitCode = some 1 from rfl, hsig]

/-- Witness for C10 at a one-entry registry whose terminal is still running. -/
theorem proc_error_resolves_wait_witness :
    (onProcError (freshTerminal none) [101]).exitCode = some 1 ∧
    handleWaitForTerminalExit
        (updateTerminal [("terminal-1", freshTerminal none)] "terminal-1"
          (onProcError · [101]))
        "terminal-1"
      = .ok (.resolved (some 1) none) := by
  have h := proc_error_resolves_wait [("terminal-1", freshTerminal none)] "terminal-1"
    (freshTerminal none) [101] (by rfl)
  exact ⟨h.1, h.2.2.2⟩

/-! ## Session metadata and `handleSessionUpdate` (SessionCoordinator) -/

/-- The `modes` object of a session (`NewSessionResponse["modes"]`):
`currentModeId` plus whatever other fields the agent sent, copied verbatim
by the object spreads in the code. -/
structure ModesInfo where
  currentModeId : Option String
  otherFields : List (String × String)
deriving DecidableEq, Repr

/-- The `models` object of a session: `currentModelId` plus other fields. -/
structure ModelsInfo where
  currentModelId : Option String
  otherFields : List (String × String)
deriving DecidableEq, Repr

/-- `SessionMetadata`: `modes? models? commands? configOptions?`.
`this.metadata = {}` corresponds to all fields absent. -/
structure SessionMetadata where
  modes : Option ModesInfo
  models : Option ModelsInfo
  commands : Option (List String)
  configOptions : Option (List (String × String))
deriving DecidableEq, Repr

/-- `this.metadata = {}` after construction or teardown. -/
def SessionMetadata.empty : SessionMetadata :=
  { modes := none, models := none, commands := none, configOptions := none }

/-- The inbound session-update union, discriminated on
`update.sessionUpdate`.  Only the fields the coordinator reads are kept;
every other variant is forwarded verbatim without touching metadata. -/
inductive SessionUpdate where
  | availableCommandsUpdate (availableCommands : List String)
  | currentModeUpdate (currentModeId : String)
  | currentModelUpdate (currentModelId : String)
  | otherUpdate (tag : String)
deriving DecidableEq, Repr

/-- Result of `handleSessionUpdate`: the new `this.metadata`, the metadata
snapshots fired on `onMetadataEmitter` (in order), and the fact that the
notification is always re-fired on `onSessionUpdateEmitter`. -/
structure SessionUpdateEffect where
  metadata : SessionMetadata
  metadataEmits : List SessionMetadata
  forwardedUpdate : Bool
deriving DecidableEq, Repr

/-- `handleSessionUpdate(params)`: patches `commands` on
`available_commands_update`, patches `modes.currentModeId` on
`current_mode_update` (when `this.metadata.modes` is set), fires the
metadata emitter after each patch, and always forwards the notification. -/
def handleSessionUpdate (meta : SessionMetadata) (u : SessionUpdate) : SessionUpdateEffect :=
  let step1 : SessionMetadata × List SessionMetadata :=
    match u with
    | .availableCommandsUpdate cmds =>
        let m := { meta with commands := some cmds }
        (m, [m])
    | _ => (meta, [])
  let step2 : SessionMetadata × List SessionMetadata :=
    match u, step1.1.modes with
    | .currentModeUpdate modeId, some modes =>
        let m := { step1.1 with
                   modes := some { modes with currentModeId := some modeId } }
        (m, [m])
    | _, _ => (step1.1, [])
  { metadata := step2.1, metadataEmits := step1.2 ++ step2.2, forwardedUpdate := true }

/-- C1 fails on the code: `handleSessionUpdate` has no
`current_model_update` branch.  At this concrete metadata a
`current_model_update` notification leaves `currentModelId` untouched and
emits no metadata snapshot. -/
theorem current_model_update_not_patched :
    (handleSessionUpdate
        { modes := none,
          models := some { currentModelId := some "model-a", otherFields := [] },
          commands := none, configOptions := none }
        (.currentModelUpdate "model-b")).metadata
      = { modes := none,
          models := some { currentModelId := some "model-a", otherFields := [] },
          commands := none, configOptions := none } ∧
    (handleSessionUpdate
        { modes := none,
          models := some { currentModelId := some "model-a", otherFields := [] },
          commands := none, configOptions := none }
        (.currentModelUpdate "model-b")).metadataEmits = [] ∧
    some "model-a" ≠ some "model-b" := by
  refine ⟨rfl, rfl, by decide⟩

/-- C1 amended: `current_mode_update` patches `currentModeId` and
`available_commands_update` patches `commands`, each re-emitting the whole
snapshot, but `current_model_update` is NOT handled — metadata is unchanged
and nothing is emitted; the notification is only forwarded verbatim. -/
theorem session_update_patch_behaviour (meta : SessionMetadata) :
    (∀ modelId, handleSessionUpdate meta (.currentModelUpdate modelId)
        = { metadata := meta, metadataEmits := [], forwardedUpdate := true }) ∧
    (∀ modes modeId,
        handleSessionUpdate { meta with modes := some modes } (.currentModeUpdate modeId)
          = { metadata :=
                { meta with modes := some { modes with currentModeId := some modeId } },
              metadataEmits :=
                [{ meta with modes := some { modes with currentModeId := some modeId } }],
              forwardedUpdate := true }) ∧
    (meta.modes = none → ∀ modeId,
        handleSessionUpdate meta (.currentModeUpdate modeId)
          = { metadata := meta, metadataEmits := [], forwardedUpdate := true }) ∧
    (∀ cmds, handleSessionUpdate meta (.availableCommandsUpdate cmds)
        = { metadata := { meta with commands := some cmds },
            metadataEmits := [{ meta with commands := some cmds }],
            forwardedUpdate := true }) := by
  refine ⟨fun modelId => rfl, fun modes modeId => rfl, ?_, fun cmds => ?_⟩
  · intro hm modeId
    obtain ⟨mo, ml, cmds, cfg⟩ := meta
    cases mo with
    | none => rfl
    | some m => simp at hm
  · obtain ⟨mo, ml, cmds0, cfg⟩ := meta
    rfl

/-- Witness for the amended C1 at concrete metadata and updates. -/
theorem session_update_patch_behaviour_witness :
    handleSessionUpdate SessionMetadata.empty (.currentModelUpdate "m")
        = { metadata := SessionMetadata.empty, metadataEmits := [],
            forwardedUpdate := true } ∧
    handleSessionUpdate SessionMetadata.empty (.currentModeUpdate "plan")
        = { metadata := SessionMetadata.empty, metadataEmits := [],
            forwardedUpdate := true } := by
  have h := session_update_patch_behaviour SessionMetadata.empty
  exact ⟨h.1 "m", h.2.2.1 rfl "plan"⟩

/-! ## Connection lifecycle: `connect()` and `cleanupDisconnected()` -/

/-- The mutable `AcpClient` fields driving the connection lifecycle:
`state`, `connection`/`process` nullability, the active session id, the
session metadata, the terminal registry and the `isDisposing` guard. -/
structure ClientState where
  state : ConnectionState
  hasConnection : Bool
  sessionId : Option String
  metadata : SessionMetadata
  terminals : List (String × ManagedTerminal)
  isDisposing : Bool
  hasProcess : Bool
deriving DecidableEq, Repr

/-- The state right after construction. -/
def initialClientState : ClientState :=
  { state := .disconnected, hasConnection := false, sessionId := none,
    metadata := SessionMetadata.empty, terminals := [], isDisposing := false,
    hasProcess := false }

/-- `cleanupDisconnected()`: a no-op while `isDisposing`; otherwise sets
state `disconnected`, nulls connection/session/process, empties the
metadata, kills each registered terminal whose process is not yet killed,
and clears the registry.  The second component lists the ids whose
processes were killed during this invocation. -/
def cleanupDisconnected (s : ClientState) : ClientState × List String :=
  if s.isDisposing then (s, [])
  else
    ({ s with state := .disconnected, hasConnection := false, sessionId := none,
              metadata := SessionMetadata.empty, hasProcess := false,
              terminals := [] },
     (s.terminals.filter (fun p => !p.2.killed)).map (fun p => p.1))

/-- C6: teardown is idempotent in effect.  Running `cleanupDisconnected`
twice yields the same state as running it once, the second run kills no
terminal process, and (outside of `dispose()`) one run already leaves the
state disconnected, the metadata cleared and the registry empty.  Both
invocations are total functions, so neither throws. -/
theorem cleanup_idempotent (s : ClientState) :
    (cleanupDisconnected (cleanupDisconnected s).1).1 = (cleanupDisconnected s).1 ∧
    (cleanupDisconnected (cleanupDisconnected s).1).2 = [] ∧
    (s.isDisposing = false →
      (cleanupDisconnected s).1.state = .disconnected ∧
      (cleanupDisconnected s).1.metadata = SessionMetadata.empty ∧
      (cleanupDisconnected s).1.terminals = []) := by
  by_cases hd : s.isDisposing
  · simp [cleanupDisconnected, hd]
  · simp only [Bool.not_eq_true] at hd
    simp [cleanupDisconnected, hd]

/-- Witness for C6 at a concrete connected state owning one live terminal. -/
theorem cleanup_idempotent_witness :
    (cleanupDisconnected
        (cleanupDisconnected
          { state := .connected, hasConnection := true, sessionId := some "sess-1",
            metadata := { modes := none, models := none, commands := some [],
                          configOptions := none },
            terminals := [("terminal-1", freshTerminal none)],
            isDisposing := false, hasProcess := true }).1).1
      = (cleanupDisconnected
          { state := .connected, hasConnection := true, sessionId := some "sess-1",
            metadata := { modes := none, models := none, commands := some [],
                          configOptions := none },
            terminals := [("terminal-1", freshTerminal none)],
            isDisposing := false, hasProcess := true }).1 ∧
    (cleanupDisconnected
        { state := .connected, hasConnection := true, sessionId := some "sess-1",
          metadata := { modes := none, models := none, commands := some [],
                        configOptions := none },
          terminals := [("terminal-1", freshTerminal none)],
          isDisposing := false, hasProcess := true }).1.terminals = [] := by
  have h := cleanup_idempotent
    { state := .connected, hasConnection := true, sessionId := some "sess-1",
      metadata := { modes := none, models := none, commands := some [],
                    configOptions := none },
      terminals := [("terminal-1", freshTerminal none)],
      isDisposing := false, hasProcess := true }
  exact ⟨h.1, (h.2.2 rfl).2.2⟩

/-- `PROTOCOL_VERSION` as imported from `@agentclientprotocol/sdk`; its
concrete value is outside this repository, only its identity matters. -/
def PROTOCOL_VERSION : Nat := 1

/-- The initialize response shape read by `connect` — the code only ever
reads `protocolVersion` from it. -/
structure InitializeResponse where
  protocolVersion : Nat
deriving DecidableEq, Repr

/-- How one `connect()` invocation ends. -/
inductive ConnectOutcome where
  | noop
  | alreadyConnecting
  | emptyCommand
  | stdioUnavailable
  | initFailed (msg : String)
  | connectedOk (negotiatedVersion : Nat)
deriving DecidableEq, Repr

/-- `connect()` as a state transition.  `command` is the configured
executable after the `.trim()` applied at the config-read site, `stdioOk`
whether the spawned process exposed stdin/stdout,
`initResult` the settled result of the `initialize` round trip (an
`.error` covers both a protocol-level rejection and a malformed response
the SDK fails to decode). -/
def connect (s : ClientState) (command : String) (stdioOk : Bool)
    (initResult : Except String InitializeResponse) : ClientState × ConnectOutcome :=
  if s.state = .connected then (s, .noop)
  else if s.state = .connecting then (s, .alreadyConnecting)
  else
    let s1 := { s with state := .connecting }
    if command = "" then
      ({ s1 with state := .disconnected }, .emptyCommand)
    else
      let s2 := { s1 with hasProcess := true }
      if !stdioOk then
        ((cleanupDisconnected s2).1, .stdioUnavailable)
      else
        let s3 := { s2 with hasConnection := true }
        match initResult with
        | .error e => ((cleanupDisconnected s3).1, .initFailed e)
        | .ok r => ({ s3 with state := .connected }, .connectedOk r.protocolVersion)

/-- C5: `connect()` while `connected` returns immediately leaving the whole
state untouched, and `connect()` while `connecting` throws
`Already connecting to ACP agent` without changing state. -/
theorem connect_reentrancy (s : ClientState) (command : String) (stdioOk : Bool)
    (initResult : Except String InitializeResponse) :
    (s.state = .connected →
        connect s command stdioOk initResult = (s, .noop)) ∧
    (s.state = .connecting →
        connect s command stdioOk initResult = (s, .alreadyConnecting)) := by
  constructor
  · intro h
    simp [connect, h]
  · intro h
    have hne : s.state ≠ .connected := by rw [h]; intro hc; cases hc
    simp [connect, h, hne]

/-- Witness for C5 at concrete connected and connecting states. -/
theorem connect_reentrancy_witness :
    connect { initialClientState with state := .connected } "opencode" true
        (.ok { protocolVersion := PROTOCOL_VERSION })
      = ({ initialClientState with state := .connected }, .noop) ∧
    connect { initialClientState with state := .connecting } "opencode" true
        (.ok { protocolVersion := PROTOCOL_VERSION })
      = ({ initialClientState with state := .connecting }, .alreadyConnecting) := by
  exact ⟨(connect_reentrancy _ "opencode" true _).1 rfl,
         (connect_reentrancy _ "opencode" true _).2 rfl⟩

/-- C4 fails on the code: `connect` never compares the response's
`protocolVersion` against `PROTOCOL_VERSION` — it only logs it.  With a
mismatched negotiated version the attempt still succeeds and the state
becomes `connected` instead of failing with a protocol error. -/
theorem version_mismatch_accepted :
    (connect initialClientState "opencode" true
        (.ok { protocolVersion := PROTOCOL_VERSION + 41 })).2
      = .connectedOk (PROTOCOL_VERSION + 41) ∧
    (connect initialClientState "opencode" true
        (.ok { protocolVersion := PROTOCOL_VERSION + 41 })).1.state = .connected ∧
    PROTOCOL_VERSION + 41 ≠ PROTOCOL_VERSION := by
  refine ⟨rfl, rfl, by decide⟩

/-- C4 amended: only a failed/rejected `initialize` round trip aborts the
attempt (with the `Failed to initialize ACP connection` error) and resets
the state to `disconnected`; a successful response is accepted without any
version validation and yields state `connected`. -/
theorem connect_init_failure_resets (s : ClientState) (command : String)
    (hs : s.state = .disconnected) (hd : s.isDisposing = false)
    (hcmd : command ≠ "") :
    (∀ e, (connect s command true (.error e)).1.state = .disconnected ∧
          (connect s command true (.error e)).2 = .initFailed e) ∧
    (∀ r, (connect s command true (.ok r)).1.state = .connected ∧
          (connect s command true (.ok r)).2 = .connectedOk r.protocolVersion) := by
  have hne : s.state ≠ .connected := by rw [hs]; intro hc; cases hc
  have hne' : s.state ≠ .connecting := by rw [hs]; intro hc; cases hc
  constructor
  · intro e
    simp [connect, hne, hne', hcmd, cleanupDisconnected, hd]
  · intro r
    simp [connect, hne, hne', hcmd]

/-- Witness for the amended C4 from the initial state. -/
theorem connect_init_failure_resets_witness :
    (connect initialClientState "opencode" true (.error "boom")).1.state
        = .disconnected ∧
    (connect initialClientState "opencode" true (.error "boom")).2
        = .initFailed "boom" ∧
    (connect initialClientState "opencode" true
        (.ok { protocolVersion := PROTOCOL_VERSION })).1.state = .connected := by
  have h := connect_init_failure_resets initialClientState "opencode" rfl rfl
    (by decide)
  exact ⟨(h.1 "boom").1, (h.1 "boom").2,
         (h.2 { protocolVersion := PROTOCOL_VERSION }).1⟩

/-! ## Permission mediation: `handlePermissionRequest` (C8) -/

/-- One entry of `params.options`. -/
structure PermissionOption where
  optionId : String
  name : String
  kind : String
deriving DecidableEq, Repr

/-- The `outcome` field of a `RequestPermissionResponse`. -/
inductive PermissionOutcome where
  | selected (optionId : String)
  | cancelled
deriving DecidableEq, Repr

/-- Result of `handlePermissionRequest` plus whether the interactive quick
pick was shown. -/
structure PermissionResult where
  outcome : PermissionOutcome
  chooserInvoked : Bool
deriving DecidableEq, Repr

/-- `handlePermissionRequest(params)`.  `mode` is the configured
`opencodeAcp.permissionMode`; `chooser` models `vscode.window.showQuickPick`
yielding the picked item's `optionId`, or `none` when dismissed. -/
def handlePermissionRequest (mode : String) (options : List PermissionOption)
    (chooser : List PermissionOption → Option String) : PermissionResult :=
  let allowOption :=
    (options.find? (fun o => o.kind == "allow_always")).orElse
      (fun _ => options.find? (fun o => o.kind == "allow_once"))
  let interactivePick : PermissionResult :=
    match chooser options with
    | none => { outcome := .cancelled, chooserInvoked := true }
    | some oid => { outcome := .selected oid, chooserInvoked := true }
  if mode = "allowAll" then
    match allowOption with
    | some o => { outcome := .selected o.optionId, chooserInvoked := false }
    | none => interactivePick
  else
    interactivePick

/-- C8: in `allowAll` mode an `allow_always` option is auto-selected, else an
`allow_once` option, both without showing the chooser; with neither kind
present the interactive chooser runs, as it always does in `ask` mode; a
dismissed chooser yields `{cancelled}`, a pick yields `{selected}`. -/
theorem permission_policy (options : List PermissionOption)
    (chooser : List PermissionOption → Option String) :
    (∀ o, options.find? (fun o => o.kind == "allow_always") = some o →
        handlePermissionRequest "allowAll" options chooser
          = { outcome := .selected o.optionId, chooserInvoked := false }) ∧
    (options.find? (fun o => o.kind == "allow_always") = none →
      ∀ o, options.find? (fun o => o.kind == "allow_once") = some o →
        handlePermissionRequest "allowAll" options chooser
          = { outcome := .selected o.optionId, chooserInvoked := false }) ∧
    (options.find? (fun o => o.kind == "allow_always") = none →
      options.find? (fun o => o.kind == "allow_once") = none →
        (handlePermissionRequest "allowAll" options chooser).chooserInvoked = true) ∧
    ((handlePermissionRequest "ask" options chooser).chooserInvoked = true) ∧
    (∀ mode, chooser options = none →
        (handlePermissionRequest mode options chooser).chooserInvoked = true →
        (handlePermissionRequest mode options chooser).outcome = .cancelled) ∧
    (∀ mode oid, chooser options = some oid →
        (handlePermissionRequest mode options chooser).chooserInvoked = true →
        (handlePermissionRequest mode options chooser).outcome = .selected oid) := by
  refine ⟨?_, ?_, ?_, ?_, ?_, ?_⟩
  · intro o h
    simp [handlePermissionRequest, Option.orElse, h]
  · intro h1 o h2
    simp [handlePermissionRequest, Option.orElse, h1, h2]
  · intro h1 h2
    cases hc : chooser options <;>
      simp [handlePermissionRequest, Option.orElse, h1, h2, hc]
  · have hm : ("ask" : String) ≠ "allowAll" := by decide
    cases hc : chooser options <;>
      simp [handlePermissionRequest, hm, hc]
  · intro mode h hinv
    by_cases hm : mode = "allowAll"
    · rcases ha : ((options.find? (fun o => o.kind == "allow_always")).orElse
        (fun _ => options.find? (fun o => o.kind == "allow_once"))) with _ | o
      · simp [handlePermissionRequest, hm, ha, h]
      · simp [handlePermissionRequest, hm, ha, h] at hinv
    · simp [handlePermissionRequest, hm, h]
  · intro mode oid h hinv
    by_cases hm : mode = "allowAll"
    · rcases ha : ((options.find? (fun o => o.kind == "allow_always")).orElse
        (fun _ => options.find? (fun o => o.kind == "allow_once"))) with _ | o
      · simp [handlePermissionRequest, hm, ha, h]
      · simp [handlePermissionRequest, hm, ha, h] at hinv
    · simp [handlePermissionRequest, hm, h]

/-- Witness for C8 at the spec's concrete example: options
`[allow_once, reject_once]`, `allowAll` auto-selects without the chooser,
while `ask` with a dismissing chooser is cancelled after invoking it. -/
theorem permission_policy_witness :
    handlePermissionRequest "allowAll"
        [{ optionId := "o1", name := "Allow once", kind := "allow_once" },
         { optionId := "o2", name := "Reject once", kind := "reject_once" }]
        (fun _ => none)
      = { outcome := .selected "o1", chooserInvoked := false } ∧
    (handlePermissionRequest "ask"
        [{ optionId := "o1", name := "Allow once", kind := "allow_once" },
         { optionId := "o2", name := "Reject once", kind := "reject_once" }]
        (fun _ => none)).chooserInvoked = true ∧
    (handlePermissionRequest "ask"
        [{ optionId := "o1", name := "Allow once", kind := "allow_once" },
         { optionId := "o2", name := "Reject once", kind := "reject_once" }]
        (fun _ => none)).outcome = .cancelled := by
  have h := permission_policy
    [{ optionId := "o1", name := "Allow once", kind := "allow_once" },
     { optionId := "o2", name := "Reject once", kind := "reject_once" }]
    (fun _ => none)
  refine ⟨h.2.1 (by decide) { optionId := "o1", name := "Allow once", kind := "allow_once" }
      (by decide), h.2.2.2.1, ?_⟩
  exact h.2.2.2.2.1 "ask" rfl h.2.2.2.1

/-! ## File reads: `handleReadTextFile` (C9) -/

/-- `content.split(/\r?\n/)` over the character list: a line break is
`"\n"` optionally preceded by `"\r"`; a lone carriage return does not
split. -/
def splitLinesAux : List Char → List Char → List String
  | [], acc => [String.mk acc.reverse]
  | '\r' :: '\n' :: rest, acc => String.mk acc.reverse :: splitLinesAux rest []
  | '\n' :: rest, acc => String.mk acc.reverse :: splitLinesAux rest []
  | c :: rest, acc => splitLinesAux rest (c :: acc)

/-- `content.split(/\r?\n/)`. -/
def splitLines (content : String) : List String :=
  splitLinesAux content.data []

/-- `handleReadTextFile(params)` after the file's bytes have been decoded to
`content`: with neither `line` nor `limit` supplied the content is returned
unmodified; otherwise the content is split on line breaks and the window
`lines.slice(start, start + limit)` is re-joined with `"\n"`, where
`start = max(0, line)` (default `0`) and `limit = max(0, limit)` (default
`lines.length`). -/
def handleReadTextFile (content : String) (line limit : Option Int) : String :=
  match line, limit with
  | none, none => content
  | _, _ =>
      let lines := splitLines content
      let start : Nat := match line with
                         | some l => (max 0 l).toNat
                         | none => 0
      let lim : Nat := match limit with
                       | some m => (max 0 m).toNat
                       | none => lines.length
      String.intercalate "\n" ((lines.drop start).take lim)

/-- C9: omitting both `line` and `limit` returns the content unmodified;
supplying both returns exactly the window `[line, line + limit)` of the
split lines (characterised index by index); supplying only `line` defaults
`limit` to the number of lines, yielding the window `[line, end)`;
supplying only `limit` defaults `line` to `0`, yielding the window
`[0, limit)`; and on the spec's concrete 5-line file `line = 2, limit = 2`
yields exactly the lines at indices 2 and 3. -/
theorem read_text_file_window (content : String) (l m : Nat) :
    handleReadTextFile content none none = content ∧
    handleReadTextFile content (some (l : Int)) (some (m : Int))
      = String.intercalate "\n" (((splitLines content).drop l).take m) ∧
    (∀ i : Nat, (((splitLines content).drop l).take m).get? i
      = if i < m then (splitLines content).get? (l + i) else none) ∧
    handleReadTextFile content (some (l : Int)) none
      = String.intercalate "\n" ((splitLines content).drop l) ∧
    handleReadTextFile content none (some (m : Int))
      = String.intercalate "\n" ((splitLines content).take m) ∧
    splitLines "l0\nl1\nl2\nl3\nl4" = ["l0", "l1", "l2", "l3", "l4"] ∧
    handleReadTextFile "l0\nl1\nl2\nl3\nl4" (some 2) (some 2) = "l2\nl3" := by
  refine ⟨rfl, ?_, ?_, ?_, ?_, ?_, ?_⟩
  · show String.intercalate "\n"
        (((splitLines content).drop (max 0 (l : Int)).toNat).take (max 0 (m : Int)).toNat)
      = String.intercalate "\n" (((splitLines content).drop l).take m)
    have hl : (max 0 (l : Int)).toNat = l := by omega
    have hm : (max 0 (m : Int)).toNat = m := by omega
    rw [hl, hm]
  · intro i
    by_cases hi : i < m
    · rw [if_pos hi, List.get?_take hi, List.get?_drop]
    · rw [if_neg hi]
      apply List.get?_eq_none.2
      calc (((splitLines content).drop l).take m).length
          ≤ m := by simp [List.length_take]
        _ ≤ i := Nat.le_of_not_lt hi
  · show String.intercalate "\n"
        (((splitLines content).drop (max 0 (l : Int)).toNat).take (splitLines content).length)
      = String.intercalate "\n" ((splitLines content).drop l)
    have hl : (max 0 (l : Int)).toNat = l := by omega
    rw [hl, List.take_of_length_le (by simp only [List.length_drop]; omega)]
  · show String.intercalate "\n"
        (((splitLines content).drop 0).take (max 0 (m : Int)).toNat)
      = String.intercalate "\n" ((splitLines content).take m)
    have hm : (max 0 (m : Int)).toNat = m := by omega
    rw [hm, List.drop_zero]
  · rfl
  · rfl

/-! ## Reference semantics of emitted metadata (C7)

JavaScript objects are passed by reference: `onMetadataEmitter.fire`
delivers the `this.metadata` object itself, not a copy, and
`setMode`/`setModel`/`newSession` assign through
`(this.metadata.modes as ...).currentModeId = ...`, mutating the very
object previously delivered.  A small heap makes that observable. -/

/-- Coordinator state under reference semantics for the `modes` object: the
heap stores `modes` objects (address = index), `modesRef` is the reference
held in `this.metadata.modes`, and `emitted` records the references handed
to `onMetadataChange` subscribers, in order. -/
structure ModesHeapState where
  heap : List ModesInfo
  modesRef : Option Nat
  emitted : List Nat
deriving DecidableEq, Repr

/-- What a subscriber holding reference `r` observes when reading it now. -/
def derefModes (s : ModesHeapState) (r : Nat) : Option ModesInfo :=
  s.heap.get? r

/-- The `newSession` path `this.metadata = { modes: response.modes, ... }`
followed by `this.onMetadataEmitter.fire(this.metadata)`: the fresh
response object is allocated and its reference emitted. -/
def newSessionModes (s : ModesHeapState) (modes : ModesInfo) : ModesHeapState :=
  { heap := s.heap ++ [modes], modesRef := some s.heap.length,
    emitted := s.emitted ++ [s.heap.length] }

/-- `setMode(modeId)` after its round trip:
`(this.metadata.modes as {currentModeId?}).currentModeId = modeId` writes
through the existing reference IN PLACE, then fires the same object. -/
def setModeStep (s : ModesHeapState) (modeId : String) : ModesHeapState :=
  match s.modesRef with
  | none => s
  | some r =>
      match s.heap.get? r with
      | none => s
      | some mo =>
          { heap := s.heap.set r { mo with currentModeId := some modeId },
            modesRef := some r,
            emitted := s.emitted ++ [r] }

/-- `handleSessionUpdate` on `current_mode_update`:
`{ ...this.metadata.modes }` allocates a COPY, the patch lands on the copy,
`this.metadata` is repointed at it and the new reference is emitted; the
object previously shared with subscribers is not written. -/
def sessionUpdateModeStep (s : ModesHeapState) (modeId : String) : ModesHeapState :=
  match s.modesRef with
  | none => s
  | some r =>
      match s.heap.get? r with
      | none => s
      | some mo =>
          { heap := s.heap ++ [{ mo with currentModeId := some modeId }],
            modesRef := some s.heap.length,
            emitted := s.emitted ++ [s.heap.length] }

/-- C7 fails on the code: after `newSession` emits the metadata whose
`modes` object lives at reference 0, a later `setMode` mutates that same
object in place, so the subscriber's previously received snapshot changes
under it. -/
theorem emitted_metadata_mutated_by_set_mode :
    (newSessionModes { heap := [], modesRef := none, emitted := [] }
        { currentModeId := some "build", otherFields := [] }).emitted = [0] ∧
    derefModes
        (newSessionModes { heap := [], modesRef := none, emitted := [] }
          { currentModeId := some "build", otherFields := [] }) 0
      = some { currentModeId := some "build", otherFields := [] } ∧
    derefModes
        (setModeStep
          (newSessionModes { heap := [], modesRef := none, emitted := [] }
            { currentModeId := some "build", otherFields := [] })
          "plan") 0
      = some { currentModeId := some "plan", otherFields := [] } ∧
    ({ currentModeId := some "plan", otherFields := [] } : ModesInfo)
      ≠ { currentModeId := some "build", otherFields := [] } := by
  refine ⟨rfl, rfl, rfl, by decide⟩

/-- C7 amended: the session-update patch path emits fresh copies — a
reference already emitted is left untouched by `sessionUpdateModeStep` —
but `setMode` (and likewise `setModel` and `newSession`'s default-model
application) writes through the live reference held by subscribers, whose
snapshot therefore changes to the new mode id. -/
theorem session_update_copies_but_set_mode_mutates (s : ModesHeapState)
    (r : Nat) (mo : ModesInfo) (modeId : String)
    (href : s.modesRef = some r) (hcell : s.heap.get? r = some mo) :
    (∀ rOld, rOld < s.heap.length →
        derefModes (sessionUpdateModeStep s modeId) rOld = derefModes s rOld) ∧
    derefModes (setModeStep s modeId) r
      = some { mo with currentModeId := some modeId } := by
  constructor
  · intro rOld hlt
    simp only [sessionUpdateModeStep, href, hcell, derefModes]
    exact List.get?_append hlt
  · simp only [setModeStep, href, hcell, derefModes]
    obtain ⟨hr, -⟩ := List.get?_eq_some.mp hcell
    rw [List.get?_set_eq_of_lt]
    exact hr

/-- Witness for the amended C7 on a one-cell heap. -/
theorem session_update_copies_but_set_mode_mutates_witness :
    derefModes
        (sessionUpdateModeStep
          { heap := [{ currentModeId := some "build", otherFields := [] }],
            modesRef := some 0, emitted := [0] } "plan") 0
      = some { currentModeId := some "build", otherFields := [] } ∧
    derefModes
        (setModeStep
          { heap := [{ currentModeId := some "build", otherFields := [] }],
            modesRef := some 0, emitted := [0] } "plan") 0
      = some { currentModeId := some "plan", otherFields := [] } := by
  have h := session_update_copies_but_set_mode_mutates
    { heap := [{ currentModeId := some "build", otherFields := [] }],
      modesRef := some 0, emitted := [0] }
    0 { currentModeId := some "build", otherFields := [] } "plan" rfl rfl
  exact ⟨h.1 0 (by decide), h.2⟩
